import Mathlib

/-!
Shallow embedding of `src/handle_bad_data/notebook.ipynb`: a self-healing
PySpark ingestion pipeline.  The notebook reads delimited raw lines under a
declared schema in PERMISSIVE mode (malformed rows land verbatim in the
`_corrupt_record` column), unions new input with the previously quarantined
raw lines, splits the result into `valid_df` (rows with a null
`_corrupt_record`, corrupt column dropped) and `invalid_df` (only the
`_corrupt_record` column), and finally overwrites the good output and the
pending quarantine set with two sequential writes; the history append is
present only as a commented-out line.
-/

namespace HandleBadData

/-- Spark column types used by the notebook's schema (`IntegerType`,
`StringType`). -/
inductive SparkType where
  | integerType : SparkType
  | stringType : SparkType
deriving DecidableEq

/-- One `StructField(name, type, nullable)` of a Spark `StructType`. -/
structure StructField where
  name : String
  dtype : SparkType
  nullable : Bool
deriving DecidableEq

/-- A Spark `StructType`: the ordered data fields of the schema.  The special
`_corrupt_record` column is modelled separately, as the `corrupt_record`
component of `Row`. -/
abbrev Schema := List StructField

/-- A typed cell value in a decoded row; `nullVal` is Spark's NULL. -/
inductive Value where
  | intVal : Int → Value
  | strVal : String → Value
  | nullVal : Value
deriving DecidableEq

/-- Numeric value of a decimal digit character. -/
def digitVal (c : Char) : Option Nat :=
  if '0' ≤ c ∧ c ≤ '9' then some (c.toNat - '0'.toNat) else none

/-- Accumulating decimal read of a digit list; fails on any non-digit. -/
def digitsToNatAux : List Char → Nat → Option Nat
  | [], acc => some acc
  | c :: cs, acc =>
      match digitVal c with
      | some d => digitsToNatAux cs (acc * 10 + d)
      | none => none

/-- A non-empty all-digit character list read as a natural number. -/
def parseDigits : List Char → Option Nat
  | [] => none
  | cs => digitsToNatAux cs 0

/-- Java-style `Integer.parseInt` as Spark's `IntegerType` cast uses it: an
optional sign followed by one or more decimal digits; anything else (such as
`"twenty"` or `"Charlie Brown"`) fails. -/
def parseIntToken (tok : String) : Option Int :=
  match tok.data with
  | '-' :: cs => (parseDigits cs).map (fun n => -(n : Int))
  | '+' :: cs => (parseDigits cs).map (fun n => (n : Int))
  | cs => (parseDigits cs).map (fun n => (n : Int))

/-- Coercion of one CSV token to one column type, as Spark's CSV reader does
it: the empty token is NULL, a `StringType` token is taken as is, and an
`IntegerType` token must parse as an integer (`"twenty"` fails). -/
def coerce (t : SparkType) (tok : String) : Option Value :=
  if tok = "" then some Value.nullVal
  else
    match t with
    | SparkType.stringType => some (Value.strVal tok)
    | SparkType.integerType => (parseIntToken tok).map Value.intVal

/-- A decoded row: one value per data field of the schema, plus the
`_corrupt_record` column (`none` when the row decoded cleanly, otherwise the
original raw line). -/
structure Row where
  values : List Value
  corrupt_record : Option String
deriving DecidableEq

/-- Positional decoding of the tokens of one line against the schema fields.
Returns the cell values (a token Spark cannot coerce becomes NULL, missing
tokens become NULL) and whether every present token coerced successfully. -/
def decodeFields (s : Schema) (toks : List String) : List Value × Bool :=
  match s, toks with
  | [], _ => ([], true)
  | _ :: fs, [] =>
      let r := decodeFields fs []
      (Value.nullVal :: r.1, r.2)
  | f :: fs, t :: ts =>
      let r := decodeFields fs ts
      match coerce f.dtype t with
      | some v => (v :: r.1, r.2)
      | none => (Value.nullVal :: r.1, false)

/-- Splitting a character list on the comma delimiter, accumulating the
current token in reverse. -/
def splitAux : List Char → List Char → List String
  | [], acc => [String.mk acc.reverse]
  | c :: cs, acc =>
      if c = ',' then String.mk acc.reverse :: splitAux cs []
      else splitAux cs (c :: acc)

/-- The CSV tokenizer (`line.splitOn ","` with Spark's default comma
delimiter; the notebook's data uses no quoting or escapes). -/
def splitOnComma (line : String) : List String :=
  splitAux line.data []

/-- `spark.read.schema(schema).csv` on one raw line in PERMISSIVE mode: split
on the comma delimiter, decode positionally, and mark the row corrupt —
storing the complete original line in `_corrupt_record` — when the token
count differs from the schema's field count or some token fails to coerce. -/
def csvRead (s : Schema) (line : String) : Row :=
  let toks := splitOnComma line
  let r := decodeFields s toks
  if toks.length = s.length ∧ r.2 = true then
    { values := r.1, corrupt_record := none }
  else
    { values := r.1, corrupt_record := some line }

/-- A raw line is corrupt for a schema when PERMISSIVE decoding populates its
`_corrupt_record` column. -/
def isCorrupt (s : Schema) (line : String) : Bool :=
  ((csvRead s line).corrupt_record).isSome

/-- The notebook's declared data fields: `id` Integer, `name` String, `age`
Integer, all nullable (the `_corrupt_record` field of the notebook's
`StructType` is the `corrupt_record` component of `Row`). -/
def schema : Schema :=
  [ { name := "id", dtype := SparkType.integerType, nullable := true },
    { name := "name", dtype := SparkType.stringType, nullable := true },
    { name := "age", dtype := SparkType.integerType, nullable := true } ]

/-- The notebook's new incoming test data (`new_data_rdd`). -/
def new_data_rdd : List String :=
  ["1,John Doe,30", "2,Jane Smith,25", "3,Bob Johnson,35", "4,Alice Johnson,twenty"]

/-- The notebook's previously invalid records to reprocess
(`previous_invalid_rdd`). -/
def previous_invalid_rdd : List String :=
  ["5,45,Charlie Brown"]

/-- `valid_df`: keep the rows whose `_corrupt_record` is null and drop that
column, leaving only the typed values. -/
def validRows (rows : List Row) : List (List Value) :=
  (rows.filter (fun r => r.corrupt_record.isNone)).map Row.values

/-- `invalid_df`: keep the rows whose `_corrupt_record` is not null and select
only the `_corrupt_record` column. -/
def invalidLines (rows : List Row) : List String :=
  (rows.filter (fun r => r.corrupt_record.isSome)).filterMap Row.corrupt_record

/-- `combined_df` dataflow of one run: new input unioned with the pending
quarantined raw lines (`new_df.union(previous_invalid_df)`), each line read
through the schema. -/
def runRows (s : Schema) (newInput pending : List String) : List Row :=
  (newInput ++ pending).map (csvRead s)

/-- The run's valid output (`valid_df` of the combined data). -/
def runValid (s : Schema) (newInput pending : List String) : List (List Value) :=
  validRows (runRows s newInput pending)

/-- The run's quarantine output (`invalid_df` of the combined data): the new
pending set written to `output/bad`. -/
def runPending (s : Schema) (newInput pending : List String) : List String :=
  invalidLines (runRows s newInput pending)

/-- The persisted storage of the pipeline: the good output at
`output/good`, the pending quarantine set at `output/bad`, and the
history archive at `output/bad_history` (whose write is commented out in the
notebook and therefore never executed). -/
structure StoreState where
  goodOut : List (List Value)
  badOut : List String
  badHistory : List String
deriving DecidableEq

/-- Outcome of one run: the persisted state afterwards and whether the run
succeeded. -/
structure RunResult where
  state : StoreState
  success : Bool
deriving DecidableEq

/-- One full run of the notebook pipeline with fault injection on its two
storage writes.  The run reads the pending set, unions it after the new
input, decodes and classifies, then executes
`valid_df.write.mode("overwrite")` followed by
`invalid_df.write.mode("overwrite")` in that order.  A write that fails
raises, aborting the remaining statements of the run; writes already executed
have overwritten their destinations.  The history append is commented out in
the source, so `badHistory` is never touched. -/
def runWrites (s : Schema) (newInput : List String) (goodWriteOk badWriteOk : Bool)
    (st : StoreState) : RunResult :=
  let rows := runRows s newInput st.badOut
  let valid := validRows rows
  let invalid := invalidLines rows
  if goodWriteOk then
    let st₁ : StoreState := { st with goodOut := valid }
    if badWriteOk then
      { state := { st₁ with badOut := invalid }, success := true }
    else
      { state := st₁, success := false }
  else
    { state := st, success := false }

/-- Substitution of a corrected raw line for a previously corrupt one in a
stored pending set (the upstream fix of a quarantined record). -/
def correctLine (bad fixed : String) (p : List String) : List String :=
  p.map (fun x => if x = bad then fixed else x)

/-- PERMISSIVE decoding either leaves `_corrupt_record` null or stores the
original line there, never anything else. -/
lemma csvRead_corrupt_cases (s : Schema) (line : String) :
    (csvRead s line).corrupt_record = none ∨ (csvRead s line).corrupt_record = some line := by
  unfold csvRead
  dsimp only
  split
  · exact Or.inl rfl
  · exact Or.inr rfl

/-- A line is corrupt exactly when the decoded row stores that line in
`_corrupt_record`. -/
lemma isCorrupt_iff (s : Schema) (line : String) :
    isCorrupt s line = true ↔ (csvRead s line).corrupt_record = some line := by
  rcases csvRead_corrupt_cases s line with h | h <;> simp [isCorrupt, h]

/-- A line is not corrupt exactly when the decoded row has a null
`_corrupt_record`. -/
lemma isCorrupt_eq_false_iff (s : Schema) (line : String) :
    isCorrupt s line = false ↔ (csvRead s line).corrupt_record = none := by
  rcases csvRead_corrupt_cases s line with h | h <;> simp [isCorrupt, h]

/-- The quarantine output of decoding a batch of raw lines is exactly the
sublist of corrupt raw lines, verbatim. -/
lemma invalidLines_map (s : Schema) (lines : List String) :
    invalidLines (lines.map (csvRead s)) = lines.filter (fun l => isCorrupt s l) := by
  induction lines with
  | nil => rfl
  | cons l ls ih =>
    cases h : isCorrupt s l with
    | true =>
      have hc := (isCorrupt_iff s l).1 h
      simp [invalidLines, List.filter_cons, h, hc] at ih ⊢
      exact ih
    | false =>
      have hc := (isCorrupt_eq_false_iff s l).1 h
      simp [invalidLines, List.filter_cons, h, hc] at ih ⊢
      exact ih

/-- The valid output of decoding a batch of raw lines is the typed values of
exactly the non-corrupt lines, in order. -/
lemma validRows_map (s : Schema) (lines : List String) :
    validRows (lines.map (csvRead s)) =
      (lines.filter (fun l => !(isCorrupt s l))).map (fun l => (csvRead s l).values) := by
  induction lines with
  | nil => rfl
  | cons l ls ih =>
    cases h : isCorrupt s l with
    | true =>
      have hc := (isCorrupt_iff s l).1 h
      simp [validRows, List.filter_cons, h, hc, isCorrupt] at ih ⊢
      exact ih
    | false =>
      have hc := (isCorrupt_eq_false_iff s l).1 h
      simp [validRows, List.filter_cons, h, hc, isCorrupt] at ih ⊢
      exact ih

/-- A run's new pending set is the corrupt sublist of its combined raw
input. -/
lemma runPending_eq (s : Schema) (newInput pending : List String) :
    runPending s newInput pending =
      (newInput ++ pending).filter (fun l => isCorrupt s l) := by
  simpa [runPending, runRows] using invalidLines_map s (newInput ++ pending)

/-- A run's valid output is the decoded values of the non-corrupt sublist of
its combined raw input. -/
lemma runValid_eq (s : Schema) (newInput pending : List String) :
    runValid s newInput pending =
      ((newInput ++ pending).filter (fun l => !(isCorrupt s l))).map
        (fun l => (csvRead s l).values) := by
  simpa [runValid, runRows] using validRows_map s (newInput ++ pending)

/-- C1: a raw record whose token count matches the schema's field count and
whose every field type-coerces successfully decodes to a Valid row (null
`_corrupt_record`) whose fields are exactly the coerced values; in
particular, input `["1,John,30", "2,Jane,twenty"]` under the notebook schema
`{id:Int, name:String, age:Int}` yields exactly the valid output
`[{id:1, name:"John", age:30}]`. -/
theorem parse_valid_roundtrip :
    (∀ (s : Schema) (line : String),
        (splitOnComma line).length = s.length →
        (decodeFields s (splitOnComma line)).2 = true →
        csvRead s line =
          { values := (decodeFields s (splitOnComma line)).1, corrupt_record := none }) ∧
      runValid schema ["1,John,30", "2,Jane,twenty"] [] =
        [[Value.intVal 1, Value.strVal "John", Value.intVal 30]] := by
  constructor
  · intro s line h1 h2
    simp [csvRead, h1, h2]
  · decide

/-- Witness for C1: the well-formed line `"3,Bob Johnson,35"` decodes to a
Valid row of its coerced values. -/
theorem parse_valid_roundtrip_witness :
    csvRead schema "3,Bob Johnson,35" =
      { values := (decodeFields schema (splitOnComma "3,Bob Johnson,35")).1,
        corrupt_record := none } :=
  parse_valid_roundtrip.1 schema "3,Bob Johnson,35" (by decide) (by decide)

/-- C2: a raw record that violates the field count or fails a type coercion
decodes to a Corrupt row whose stored raw text is the original input line,
byte for byte. -/
theorem parse_corrupt_verbatim (s : Schema) (line : String)
    (h : (splitOnComma line).length ≠ s.length ∨
      (decodeFields s (splitOnComma line)).2 = false) :
    (csvRead s line).corrupt_record = some line := by
  have hneg : ¬((splitOnComma line).length = s.length ∧
      (decodeFields s (splitOnComma line)).2 = true) := by
    rcases h with h | h
    · exact fun hc => h hc.1
    · rintro ⟨_, h2⟩
      rw [h] at h2
      exact Bool.false_ne_true h2
  simp [csvRead, hneg]

/-- Witness for C2: `"2,Jane,twenty"` fails the age coercion and is stored
verbatim in `_corrupt_record`. -/
theorem parse_corrupt_verbatim_witness :
    (csvRead schema "2,Jane,twenty").corrupt_record = some "2,Jane,twenty" :=
  parse_corrupt_verbatim schema "2,Jane,twenty" (Or.inr (by decide))

/-- C3: with no new input and an unchanged environment, a second run of the
merger persists the same pending quarantine set as the first run — no
duplication, no loss. -/
theorem merger_idempotent (s : Schema) (st : StoreState) :
    (runWrites s [] true true ((runWrites s [] true true st).state)).state.badOut
      = (runWrites s [] true true st).state.badOut := by
  have h : ∀ p : List String,
      invalidLines (runRows s [] p) = p.filter (fun l => isCorrupt s l) := by
    intro p
    simpa using invalidLines_map s p
  simp [runWrites, h, List.filter_filter]

/-- C5: a record of the combined input whose decode is classified Valid lands
in the run's valid output and never in the run's pending quarantine set. -/
theorem valid_pending_disjoint (s : Schema) (newInput pending : List String) (l : String)
    (hmem : l ∈ newInput ++ pending)
    (hval : (csvRead s l).corrupt_record = none) :
    (csvRead s l).values ∈ runValid s newInput pending ∧
      l ∉ runPending s newInput pending := by
  have h1 : isCorrupt s l = false := (isCorrupt_eq_false_iff s l).2 hval
  constructor
  · rw [runValid_eq]
    exact List.mem_map_of_mem _ (List.mem_filter.2 ⟨hmem, by simp [h1]⟩)
  · rw [runPending_eq]
    intro hc
    have := (List.mem_filter.1 hc).2
    rw [h1] at this
    exact Bool.false_ne_true this

/-- Witness for C5: the valid line `"1,John Doe,30"` of the notebook's data
is in the valid output and not in the pending set. -/
theorem valid_pending_disjoint_witness :
    (csvRead schema "1,John Doe,30").values ∈
        runValid schema new_data_rdd previous_invalid_rdd ∧
      "1,John Doe,30" ∉ runPending schema new_data_rdd previous_invalid_rdd :=
  valid_pending_disjoint schema new_data_rdd previous_invalid_rdd "1,John Doe,30"
    (by decide) (by decide)

/-- C9: a record that is corrupt under the schema in one run enters the
pending set; once its raw line is corrected to one satisfying the schema,
the next run classifies the corrected record Valid and leaves it out of the
resulting pending set. -/
theorem quarantine_rescue (s : Schema) (newInput pending new₂ : List String)
    (bad fixed : String)
    (hbad : isCorrupt s bad = true) (hmem : bad ∈ newInput ++ pending)
    (hfix : isCorrupt s fixed = false) :
    bad ∈ runPending s newInput pending ∧
      (csvRead s fixed).values ∈
        runValid s new₂ (correctLine bad fixed (runPending s newInput pending)) ∧
      fixed ∉ runPending s new₂ (correctLine bad fixed (runPending s newInput pending)) := by
  have hpend : bad ∈ runPending s newInput pending := by
    rw [runPending_eq]
    exact List.mem_filter.2 ⟨hmem, hbad⟩
  have hfixmem : fixed ∈ new₂ ++ correctLine bad fixed (runPending s newInput pending) := by
    apply List.mem_append_right
    have := List.mem_map_of_mem (fun x => if x = bad then fixed else x) hpend
    simpa [correctLine] using this
  have hvalnone : (csvRead s fixed).corrupt_record = none :=
    (isCorrupt_eq_false_iff s fixed).1 hfix
  refine ⟨hpend, ?_, ?_⟩
  · rw [runValid_eq]
    exact List.mem_map_of_mem _ (List.mem_filter.2 ⟨hfixmem, by simp [hfix]⟩)
  · rw [runPending_eq]
    intro hc
    have := (List.mem_filter.1 hc).2
    rw [hfix] at this
    exact Bool.false_ne_true this

/-- Witness for C9: `"5,45,Charlie Brown"` is quarantined; corrected to
`"5,Charlie Brown,45"` it becomes Valid on the next run and leaves the
pending set. -/
theorem quarantine_rescue_witness :
    "5,45,Charlie Brown" ∈ runPending schema [] ["5,45,Charlie Brown"] ∧
      (csvRead schema "5,Charlie Brown,45").values ∈
        runValid schema [] (correctLine "5,45,Charlie Brown" "5,Charlie Brown,45"
          (runPending schema [] ["5,45,Charlie Brown"])) ∧
      "5,Charlie Brown,45" ∉ runPending schema []
        (correctLine "5,45,Charlie Brown" "5,Charlie Brown,45"
          (runPending schema [] ["5,45,Charlie Brown"])) :=
  quarantine_rescue schema [] ["5,45,Charlie Brown"] [] "5,45,Charlie Brown"
    "5,Charlie Brown,45" (by decide) (by decide) (by decide)

/-- C10: classification is exhaustive — the number of valid rows plus the
number of quarantined lines equals the number of combined input lines. -/
theorem classification_exhaustive (s : Schema) (newInput pending : List String) :
    (runValid s newInput pending).length + (runPending s newInput pending).length
      = (newInput ++ pending).length := by
  rw [runValid_eq, runPending_eq, List.length_map]
  induction newInput ++ pending with
  | nil => rfl
  | cons x xs ih =>
    cases h : isCorrupt s x <;>
      simp [List.filter_cons, h, ← ih] <;> omega

/-- Counterexample to C4: when the good-output write succeeds and the
pending-set write then fails, the run fails but the Valid output has already
been durably overwritten — the two sequential writes are not atomic. -/
theorem commit_not_atomic :
    (runWrites schema ["1,John Doe,30"] true false
        { goodOut := [], badOut := [], badHistory := [] }).success = false ∧
      (runWrites schema ["1,John Doe,30"] true false
        { goodOut := [], badOut := [], badHistory := [] }).state.goodOut =
        [[Value.intVal 1, Value.strVal "John Doe", Value.intVal 30]] := by
  decide

/-- C4 as amended: on a failed run the pending quarantine set and the history
are unchanged, and if the failure strikes the first write (the valid output),
no persisted state changes at all; a failure of the second write, however,
leaves the valid output of that run already durably written. -/
theorem commit_failure_partial (s : Schema) (newInput : List String) (g b : Bool)
    (st : StoreState) (h : (runWrites s newInput g b st).success = false) :
    (runWrites s newInput g b st).state.badOut = st.badOut ∧
      (runWrites s newInput g b st).state.badHistory = st.badHistory ∧
      (g = false → (runWrites s newInput g b st).state = st) := by
  cases g <;> cases b <;> simp [runWrites] at h ⊢

/-- Witness for C4's amended theorem: a concrete run whose second write
fails keeps the pending set and history intact. -/
theorem commit_failure_partial_witness :
    (runWrites schema ["1,John Doe,30"] true false
        { goodOut := [], badOut := ["5,45,Charlie Brown"], badHistory := [] }).state.badOut
        = ["5,45,Charlie Brown"] ∧
      (runWrites schema ["1,John Doe,30"] true false
        { goodOut := [], badOut := ["5,45,Charlie Brown"], badHistory := [] }).state.badHistory
        = [] ∧
      (true = false →
        (runWrites schema ["1,John Doe,30"] true false
          { goodOut := [], badOut := ["5,45,Charlie Brown"], badHistory := [] }).state
          = { goodOut := [], badOut := ["5,45,Charlie Brown"], badHistory := [] }) :=
  commit_failure_partial schema ["1,John Doe,30"] true false
    { goodOut := [], badOut := ["5,45,Charlie Brown"], badHistory := [] } (by decide)

/-- Counterexample to C6: with prior pending `["5,45,Charlie Brown"]`, no new
input and both writes succeeding, the run reproduces a persisted state that
is byte-identical to the one before it — pending entries are bare raw
strings, so no reprocess-attempt count exists, let alone is incremented. -/
theorem reprocess_no_attempt_count :
    runWrites schema [] true true
        { goodOut := [], badOut := ["5,45,Charlie Brown"], badHistory := [] } =
      { state := { goodOut := [], badOut := ["5,45,Charlie Brown"], badHistory := [] },
        success := true } := by
  decide

/-- C6 as amended: with prior pending `["5,45,Charlie Brown"]`, empty new
input and the unchanged schema, the run's valid output is empty and its
pending set is again exactly `["5,45,Charlie Brown"]`; the code stores no
attempt count, so nothing is incremented. -/
theorem reprocess_shifted_scenario :
    runValid schema [] ["5,45,Charlie Brown"] = [] ∧
      runPending schema [] ["5,45,Charlie Brown"] = ["5,45,Charlie Brown"] := by
  decide

/-- Counterexample to C7: the positionally shifted line
`"5,45,Charlie Brown"` is classified Corrupt, yet its decoded row carries the
populated typed fields id = 5 and name = "45" alongside the raw line. -/
theorem corrupt_row_typed_fields :
    (csvRead schema "5,45,Charlie Brown").corrupt_record = some "5,45,Charlie Brown" ∧
      (csvRead schema "5,45,Charlie Brown").values =
        [Value.intVal 5, Value.strVal "45", Value.nullVal] := by
  decide

/-- C7 as amended: the quarantine output itself carries only raw records —
it is exactly the corrupt sublist of the original raw input lines, because
`invalid_df` selects only the `_corrupt_record` column and drops every typed
field (typed fields that coerced individually remain populated in the
intermediate decoded row). -/
theorem quarantine_output_raw_only (s : Schema) (newInput pending : List String) :
    runPending s newInput pending =
      (newInput ++ pending).filter (fun l => isCorrupt s l) :=
  runPending_eq s newInput pending

/-- Counterexample to C8: a successful run that quarantines the newly
corrupt line `"4,Alice Johnson,twenty"` archives nothing — the history
dataset stays empty, because the history write is commented out. -/
theorem history_never_archived :
    (runWrites schema ["4,Alice Johnson,twenty"] true true
        { goodOut := [], badOut := [], badHistory := [] }).success = true ∧
      (runWrites schema ["4,Alice Johnson,twenty"] true true
        { goodOut := [], badOut := [], badHistory := [] }).state.badOut =
        ["4,Alice Johnson,twenty"] ∧
      (runWrites schema ["4,Alice Johnson,twenty"] true true
        { goodOut := [], badOut := [], badHistory := [] }).state.badHistory = [] := by
  decide

/-- C8 as amended: no run ever writes to the history dataset (the archive
append is present only as a commented-out line), so history is unchanged by
every run — in particular it is never deleted or shrunk, but nothing is ever
archived into it either. -/
theorem history_untouched (s : Schema) (newInput : List String) (g b : Bool)
    (st : StoreState) :
    (runWrites s newInput g b st).state.badHistory = st.badHistory := by
  cases g <;> cases b <;> simp [runWrites]

end HandleBadData
